import Mathlib

/-!
# Verification of the `NeighborList` excerpt of `ase/calculators/neighborlist.py`

Shallow embedding of the source file into Lean 4.  Python floats are modelled
as exact rationals (`ℚ`); a NumPy `(N, 3)` array of positions is a
`List Vec3`; the `3 × 3` cell matrix is a `Mat3` whose rows are the lattice
vectors, exactly as in the source (`atoms.get_cell()` rows).  Python runtime
failures (`ValueError`, `LinAlgError`, `NameError`, `AttributeError`,
`IndexError`, `TypeError`) are modelled with an explicit error type; a method
that can fail returns an `Except` (or, for `build`, the mutated state paired
with an optional error, because the source mutates attributes *before* the
point of failure and those mutations survive the raised exception).
-/

namespace NeighborListModel

/-- A 3-component vector of exact rationals (one row of an `(N, 3)` NumPy
array, or one cartesian position). -/
structure Vec3 where
  x : ℚ
  y : ℚ
  z : ℚ
deriving DecidableEq

/-- Componentwise difference, `a - b`. -/
def Vec3.sub (a b : Vec3) : Vec3 := ⟨a.x - b.x, a.y - b.y, a.z - b.z⟩

/-- Componentwise negation. -/
def Vec3.neg (a : Vec3) : Vec3 := ⟨-a.x, -a.y, -a.z⟩

/-- Euclidean dot product `npy.dot(v, v)`-style. -/
def Vec3.dot (a b : Vec3) : ℚ := a.x * b.x + a.y * b.y + a.z * b.z

/-- Squared Euclidean norm of a 3-vector. -/
def Vec3.sqNorm (a : Vec3) : ℚ := a.dot a

/-- A `3 × 3` matrix given by its three rows (the lattice vectors of the
simulation cell, in the row convention the source uses: `positions · cell⁻¹`
gives fractional coordinates). -/
structure Mat3 where
  r0 : Vec3
  r1 : Vec3
  r2 : Vec3
deriving DecidableEq

/-- Column `0` of a matrix (`m[:, 0]` in NumPy). -/
def Mat3.col0 (m : Mat3) : Vec3 := ⟨m.r0.x, m.r1.x, m.r2.x⟩

/-- Column `1` of a matrix (`m[:, 1]` in NumPy). -/
def Mat3.col1 (m : Mat3) : Vec3 := ⟨m.r0.y, m.r1.y, m.r2.y⟩

/-- Column `2` of a matrix (`m[:, 2]` in NumPy). -/
def Mat3.col2 (m : Mat3) : Vec3 := ⟨m.r0.z, m.r1.z, m.r2.z⟩

/-- Determinant of a `3 × 3` matrix (cofactor expansion along the first
row). -/
def Mat3.det (m : Mat3) : ℚ :=
  m.r0.x * (m.r1.y * m.r2.z - m.r1.z * m.r2.y)
    - m.r0.y * (m.r1.x * m.r2.z - m.r1.z * m.r2.x)
    + m.r0.z * (m.r1.x * m.r2.y - m.r1.y * m.r2.x)

/-- Exact inverse of a `3 × 3` matrix via the adjugate; `none` exactly when
the matrix is singular.  This models `npy.linalg.inv`, which raises
`LinAlgError` on a singular matrix. -/
def Mat3.inv? (m : Mat3) : Option Mat3 :=
  let d := m.det
  if d = 0 then none
  else
    some ⟨⟨(m.r1.y * m.r2.z - m.r1.z * m.r2.y) / d,
           (m.r0.z * m.r2.y - m.r0.y * m.r2.z) / d,
           (m.r0.y * m.r1.z - m.r0.z * m.r1.y) / d⟩,
          ⟨(m.r1.z * m.r2.x - m.r1.x * m.r2.z) / d,
           (m.r0.x * m.r2.z - m.r0.z * m.r2.x) / d,
           (m.r0.z * m.r1.x - m.r0.x * m.r1.z) / d⟩,
          ⟨(m.r1.x * m.r2.y - m.r1.y * m.r2.x) / d,
           (m.r0.y * m.r2.x - m.r0.x * m.r2.y) / d,
           (m.r0.x * m.r1.y - m.r0.y * m.r1.x) / d⟩⟩

/-- Row vector times matrix, `npy.dot(p, M)` for a single length-3 row `p`:
component `j` is `Σ_k p_k · M[k, j]`. -/
def rowVecMul (p : Vec3) (m : Mat3) : Vec3 :=
  ⟨p.x * m.r0.x + p.y * m.r1.x + p.z * m.r2.x,
   p.x * m.r0.y + p.y * m.r1.y + p.z * m.r2.y,
   p.x * m.r0.z + p.y * m.r1.z + p.z * m.r2.z⟩

/-- Periodicity flags for the three axes (`atoms.get_pbc()`). -/
structure Pbc where
  p0 : Bool
  p1 : Bool
  p2 : Bool
deriving DecidableEq

/-- The atomic state consumed by the neighbor list: positions
(`atoms.positions` / `atoms.get_positions()`), cell (`atoms.get_cell()`) and
periodicity flags (`atoms.get_pbc()`). -/
structure Atoms where
  positions : List Vec3
  cell : Mat3
  pbc : Pbc
deriving DecidableEq

/-- Python runtime errors raised by the modelled code paths. -/
inductive PyErr where
  | valueError
  | typeError
  | linAlgError
  | nameError
  | attributeError
  | indexError
deriving DecidableEq

/-- The Python values the modelled methods can return: `update` has no
`return` statement, so it returns `None`; the (aspirational) spec says it
should return a boolean. -/
inductive PyVal where
  | none
  | bool (b : Bool)
deriving DecidableEq

/-- The attribute state of a `NeighborList` instance.  `__init__` assigns
only `cutoffs` and `skin`; the source reads `self.positions` (line 7 checks
`self.positions is None`, line 19 uses it as an array) and `self.nbors`
(line 33) but no method of the class ever assigns either, so we model those
attributes as `Option`s that start out `none` — the `is None` check on
line 7 shows that an absent/`None` initial value is the intended sentinel.
`build` assigns `pbc` and `cell` (lines 13–14). -/
structure NLState where
  cutoffs : List (ℕ × ℚ)
  skin : ℚ
  positions : Option (List Vec3)
  pbc : Option Pbc
  cell : Option Mat3
  nbors : Option (List (List ℕ))
deriving DecidableEq

/-- `__init__(self, cutoffs, skin)`:
`self.cutoffs = dict([(Z, rc + skin) for Z, rc in cutoffs.items()])`,
`self.skin = skin`.  The Python dict built from the caller's mapping is a
fresh association table holding `rc + skin` per species. -/
def NeighborList.initWith (cutoffs : List (ℕ × ℚ)) (skin : ℚ) : NLState :=
  ⟨cutoffs.map (fun zr => (zr.1, zr.2 + skin)), skin,
   Option.none, Option.none, Option.none, Option.none⟩

/-- `__init__` with the default argument `skin=0.3`. -/
def NeighborList.initDefault (cutoffs : List (ℕ × ℚ)) : NLState :=
  NeighborList.initWith cutoffs (3 / 10)

/-- NumPy `.max()` over a flattened array: `ValueError` on an empty array,
otherwise the maximum entry. -/
def npMax : List ℚ → Except PyErr ℚ
  | [] => .error .valueError
  | q :: qs => .ok (qs.foldl max q)

/-- The flattened entries of `(curr - old)**2` for two `(N, 3)` arrays of
equal first dimension: the three squared component differences of each
row pair.  (NumPy would also broadcast a first dimension of 1; the callers
below are only ever used, and the theorems only ever stated, at equal
lengths, where elementwise subtraction is exact.) -/
def sqDiffList (curr old : List Vec3) : List ℚ :=
  (List.zip curr old).flatMap fun pq =>
    [(pq.1.x - pq.2.x) ^ 2, (pq.1.y - pq.2.y) ^ 2, (pq.1.z - pq.2.z) ^ 2]

/-- The condition of `update` (lines 7–8):
`self.positions is None or ((atoms.positions - self.positions)**2).max() > self.skin**2`.
Note the source takes `.max()` over *all* `3 N` squared entries — the
largest squared coordinate difference — not the largest squared Euclidean
row norm.  Mismatched array lengths make the NumPy subtraction fail. -/
def updateCond (s : NLState) (a : Atoms) : Except PyErr Bool :=
  match s.positions with
  | Option.none => .ok true
  | some old =>
    if a.positions.length = old.length then
      (npMax (sqDiffList a.positions old)).map fun m =>
        if s.skin ^ 2 < m then true else false
    else .error .valueError

/-- `max(cutoffs.values())` (line 16; the free name `cutoffs` can only refer
to the instance's cutoff table, `self.cutoffs`).  Python's `max` raises
`ValueError` on an empty sequence. -/
def rcmaxOf (cutoffs : List (ℕ × ℚ)) : Except PyErr ℚ :=
  match cutoffs.map Prod.snd with
  | [] => .error .valueError
  | q :: qs => .ok (qs.foldl max q)

/-- Python float modulo by `1.0`: `q % 1.0 = q - floor(q)`, a true modulo
whose result is in `[0, 1)` (a negative operand wraps to the top of the
interval). -/
def wrapFrac (q : ℚ) : ℚ := q - ⌊q⌋

/-- One axis of the wrapping loop (lines 22–23): a periodic axis gets
`scaled[:, i] %= 1.0`; a non-periodic axis is left untouched. -/
def wrapAxis (flag : Bool) (q : ℚ) : ℚ := if flag then wrapFrac q else q

/-- The wrapping loop applied to one scaled (fractional) coordinate row:
each of the three axes is wrapped exactly when its periodicity flag is
set. -/
def wrapAxes (p : Pbc) (v : Vec3) : Vec3 :=
  ⟨wrapAxis p.p0 v.x, wrapAxis p.p1 v.y, wrapAxis p.p2 v.z⟩

/-- The exact value of `int(rcmax / h)` where `h = 1 / sqrt(s)` (lines
24–26), i.e. the truncation toward zero of `rcmax · √s`, computed without
leaving `ℚ`: for the truncation of `t = |rcmax| · √s ≥ 0` we have
`⌊t⌋ = Nat.sqrt ⌊t²⌋` with `t² = rcmax² · s` rational, and `int` of a
negative value is the negated truncation of its absolute value.  The
theorem `axisRepeat_slab_spec` below proves this equals
`⌊rcmax / (1 / Real.sqrt s)⌋` for the nonnegative `rcmax` in use. -/
def intDivH (rcmax s : ℚ) : ℤ :=
  if rcmax < 0 then -(Nat.sqrt (Int.toNat ⌊rcmax ^ 2 * s⌋) : ℤ)
  else (Nat.sqrt (Int.toNat ⌊rcmax ^ 2 * s⌋) : ℤ)

/-- One iteration of the repeat-count loop (lines 21–28): a periodic axis
appends `int(rcmax / h) + 1` with `h = 1 / sqrt(npy.dot(v, v))` for
`v = icell[:, i]`; a non-periodic axis appends `0`. -/
def axisRepeat (flag : Bool) (rcmax : ℚ) (v : Vec3) : ℤ :=
  if flag then intDivH rcmax v.sqNorm + 1 else 0

/-- The list `N` built by the loop on lines 20–28. -/
def repeatCounts (p : Pbc) (rcmax : ℚ) (icell : Mat3) : List ℤ :=
  [axisRepeat p.p0 rcmax icell.col0,
   axisRepeat p.p1 rcmax icell.col1,
   axisRepeat p.p2 rcmax icell.col2]

/-- `build(self, atoms)` (lines 11–30), modelled step for step in source
order.  The result is the post-call attribute state together with the
raised error, if any; the state is returned even on failure because the
source assigns `self.pbc` and `self.cell` (lines 13–14) *before* the
operations that can raise, and those assignments survive the exception.

Faithful oddities of the source kept here:
* line 12 fetches `atoms.get_positions()` into a *local* `positions` that is
  never used again; `self.positions` is never assigned;
* line 19 reads `self.positions`, which no method ever set, so a build on a
  fresh instance fails at that point (modelled as a `TypeError`/attribute
  failure on the `none` sentinel);
* `scaled`, `N` and `R` are locals that are dropped on return, so a
  *successful* build changes only `self.pbc` and `self.cell`. -/
def build (s : NLState) (a : Atoms) : NLState × Option PyErr :=
  let _positions := a.positions
  let s1 : NLState := { s with pbc := some a.pbc, cell := some a.cell }
  match rcmaxOf s1.cutoffs with
  | .error e => (s1, some e)
  | .ok rcmax =>
    match Mat3.inv? a.cell with
    | Option.none => (s1, some PyErr.linAlgError)
    | some icell =>
      match s1.positions with
      | Option.none => (s1, some PyErr.typeError)
      | some selfPos =>
        let scaled := selfPos.map fun p => rowVecMul p icell
        let scaledWrapped := scaled.map (wrapAxes a.pbc)
        let _N := repeatCounts a.pbc rcmax icell
        let _R := scaledWrapped.map fun p => rowVecMul p a.cell
        (s1, Option.none)

/-- `update(self, atoms)` (lines 6–9).  The returned triple is the Python
return value (always `None`: the method has no `return` statement), a
spec-level observation of whether the rebuild branch ran to completion,
and the post-call state.  Errors raised by the condition or by `build`
propagate. -/
def update (s : NLState) (a : Atoms) : Except PyErr (PyVal × Bool × NLState) :=
  match updateCond s a with
  | .error e => .error e
  | .ok false => .ok (PyVal.none, false, s)
  | .ok true =>
    match build s a with
    | (_, some e) => .error e
    | (s2, Option.none) => .ok (PyVal.none, true, s2)

/-- Python list indexing `l[a]` with an integer index: negative indices
count from the end; out-of-range indices raise `IndexError`. -/
def pyIndex {α : Type} (l : List α) (a : ℤ) : Except PyErr α :=
  let i : ℤ := if a < 0 then a + l.length else a
  if i < 0 then .error .indexError
  else
    match l.get? i.toNat with
    | some v => .ok v
    | Option.none => .error .indexError

/-- `neighbors(self, a)` (lines 32–33): `return self.nbors[a], displ`.
Evaluation order: the attribute `self.nbors` (never assigned by any method
— `AttributeError` when absent), then the indexing (`IndexError` when out
of range), then the bare name `displ`, which is unbound in the source and
raises `NameError`.  Consequently the call never returns a value. -/
def neighbors (s : NLState) (a : ℤ) : Except PyErr (List ℕ × PyVal) :=
  match s.nbors with
  | Option.none => .error .attributeError
  | some nb =>
    match pyIndex nb a with
    | .error e => .error e
    | .ok _row => .error .nameError

/-- Modelled from the spec: the pair-list storage and the symmetric
synthesis performed by `neighbors` are missing from the source (the
excerpt's `neighbors` body is an unfinished stub whose names `nbors` and
`displ` are never bound), so the directional pair store and the undirected
adjacency view are modelled from the spec's words: a pair record holds the
two atom indices in the stored direction and the displacement vector
(position of the second member minus position of the first). -/
structure PairRecord where
  i : ℕ
  j : ℕ
  d : Vec3
deriving DecidableEq

/-- Modelled from the spec: `neighbors(a)` "returns, for atom index a, the
set of (neighbor index, displacement vector) pairs, synthesizing the
symmetric partner (j, −displacement) for pairs stored as (a, j) or (i, a)
regardless of storage direction". -/
def neighborsView (pairs : List PairRecord) (a : ℕ) : List (ℕ × Vec3) :=
  pairs.flatMap fun p =>
    (if p.i = a then [(p.j, p.d)] else []) ++
      (if p.j = a then [(p.i, p.d.neg)] else [])

/-- The rebuild criterion the source actually implements, restated as a
predicate: some atom has some single cartesian coordinate whose displacement
since the last build exceeds `skin` in absolute value (the componentwise
maximum displacement exceeds `skin`).  This is weaker than "some atom's
Euclidean displacement exceeds `skin`". -/
def compDispExceeds (curr old : List Vec3) (skin : ℚ) : Prop :=
  ∃ pq ∈ List.zip curr old,
    skin < |pq.1.x - pq.2.x| ∨ skin < |pq.1.y - pq.2.y|
      ∨ skin < |pq.1.z - pq.2.z|

/-! ## Shared helper lemmas and concrete fixtures -/

/-- The identity cell (a unit cube with lattice vectors along the axes). -/
def idCell : Mat3 := ⟨⟨1, 0, 0⟩, ⟨0, 1, 0⟩, ⟨0, 0, 1⟩⟩

/-- The degenerate all-zero cell (zero volume). -/
def zeroCell : Mat3 := ⟨⟨0, 0, 0⟩, ⟨0, 0, 0⟩, ⟨0, 0, 0⟩⟩

/-- All three axes periodic. -/
def pbcAll : Pbc := ⟨true, true, true⟩

/-- Double negation of a 3-vector is the identity. -/
lemma Vec3.neg_neg (v : Vec3) : v.neg.neg = v := by
  cases v; simp [Vec3.neg]

/-- Every branch of `build` returns the state in which only `pbc` and `cell`
have been overwritten with the new atomic values: the assignments on source
lines 13–14 are the sole attribute mutations of `build`, and they precede
every possible failure point. -/
lemma build_fst (s : NLState) (a : Atoms) :
    (build s a).1 = { s with pbc := some a.pbc, cell := some a.cell } := by
  cases h1 : rcmaxOf s.cutoffs with
  | error e => simp [build, h1]
  | ok rcmax =>
    cases h2 : Mat3.inv? a.cell with
    | none => simp [build, h1, h2]
    | some icell =>
      cases h3 : s.positions with
      | none => simp [build, h1, h2, h3]
      | some selfPos => simp [build, h1, h2, h3]

/-! ## C10 — constructor stores radius + skin, default skin 0.3 -/

/-- C10: constructing a `NeighborList` without an explicit `skin` uses the
default `skin = 0.3 = 3/10`, and in general the constructor stores, for every
species of the input table, exactly the supplied radius plus the skin. -/
theorem init_cutoffs_radius_plus_skin :
    (∀ cutoffs : List (ℕ × ℚ),
        (NeighborList.initDefault cutoffs).cutoffs
            = cutoffs.map (fun zr => (zr.1, zr.2 + 3 / 10))
          ∧ (NeighborList.initDefault cutoffs).skin = 3 / 10)
      ∧ ∀ (cutoffs : List (ℕ × ℚ)) (skin : ℚ),
          (NeighborList.initWith cutoffs skin).cutoffs
              = cutoffs.map (fun zr => (zr.1, zr.2 + skin))
            ∧ (NeighborList.initWith cutoffs skin).skin = skin :=
  ⟨fun _ => ⟨rfl, rfl⟩, fun _ _ => ⟨rfl, rfl⟩⟩

/-! ## C5 — fractional coordinates: periodic axes wrap into `[0, 1)` by a
true modulo, non-periodic axes are untouched -/

/-- The single-axis wrap is the mathematical modulo: on a periodic axis the
result differs from the input by an integer and lies in `[0, 1)` (so a
negative input wraps to the top of the interval instead of truncating toward
zero); on a non-periodic axis the input passes through unchanged. -/
lemma wrapAxis_spec (flag : Bool) (q : ℚ) :
    (flag = true →
        (∃ n : ℤ, wrapAxis flag q = q - n)
          ∧ 0 ≤ wrapAxis flag q ∧ wrapAxis flag q < 1)
      ∧ (flag = false → wrapAxis flag q = q) := by
  cases flag with
  | false => exact ⟨fun h => Bool.noConfusion h, fun _ => rfl⟩
  | true =>
    refine ⟨fun _ => ⟨⟨⌊q⌋, by simp [wrapAxis, wrapFrac]⟩, ?_, ?_⟩,
      fun h => Bool.noConfusion h⟩
    · have := Int.floor_le q
      simp only [wrapAxis, wrapFrac, if_true]
      linarith
    · have := Int.lt_floor_add_one q
      simp only [wrapAxis, wrapFrac, if_true]
      linarith

/-- C5: during `build`, each fractional-coordinate row is wrapped axis by
axis: a coordinate on an axis whose periodicity flag is set is replaced by a
value that differs from it by an integer and lies in `[0, 1)` (a true modulo,
wrapping negatives to the top of the interval), and a coordinate on a
non-periodic axis is left unchanged. -/
theorem build_wraps_periodic_axes (p : Pbc) (v : Vec3) :
    ((p.p0 = true →
        (∃ n : ℤ, (wrapAxes p v).x = v.x - n)
          ∧ 0 ≤ (wrapAxes p v).x ∧ (wrapAxes p v).x < 1)
      ∧ (p.p0 = false → (wrapAxes p v).x = v.x))
    ∧ ((p.p1 = true →
        (∃ n : ℤ, (wrapAxes p v).y = v.y - n)
          ∧ 0 ≤ (wrapAxes p v).y ∧ (wrapAxes p v).y < 1)
      ∧ (p.p1 = false → (wrapAxes p v).y = v.y))
    ∧ ((p.p2 = true →
        (∃ n : ℤ, (wrapAxes p v).z = v.z - n)
          ∧ 0 ≤ (wrapAxes p v).z ∧ (wrapAxes p v).z < 1)
      ∧ (p.p2 = false → (wrapAxes p v).z = v.z)) :=
  ⟨wrapAxis_spec p.p0 v.x, wrapAxis_spec p.p1 v.y, wrapAxis_spec p.p2 v.z⟩

/-- C5 witness: a concrete periodic x-axis wraps `-1/4` up into `[0, 1)` by
an integer shift, and a concrete non-periodic y-axis leaves `-1/4`
unchanged. -/
theorem build_wraps_periodic_axes_witness :
    ((∃ n : ℤ,
        (wrapAxes ⟨true, false, true⟩ ⟨-1/4, -1/4, 5/2⟩).x = -1/4 - n)
      ∧ 0 ≤ (wrapAxes ⟨true, false, true⟩ ⟨-1/4, -1/4, 5/2⟩).x
      ∧ (wrapAxes ⟨true, false, true⟩ ⟨-1/4, -1/4, 5/2⟩).x < 1)
    ∧ (wrapAxes ⟨true, false, true⟩ ⟨-1/4, -1/4, 5/2⟩).y = -1/4 :=
  ⟨(build_wraps_periodic_axes ⟨true, false, true⟩ ⟨-1/4, -1/4, 5/2⟩).1.1 rfl,
   (build_wraps_periodic_axes ⟨true, false, true⟩ ⟨-1/4, -1/4, 5/2⟩).2.1.2 rfl⟩

/-! ## C9 — symmetry of the adjacency view (spec-modelled) -/

/-- C9: the undirected adjacency view is symmetric: whatever direction a
pair was stored in, if `(j, d)` appears in `neighbors(i)` then `(i, -d)`
appears in `neighbors(j)`. -/
theorem neighborsView_symmetric :
    ∀ (pairs : List PairRecord) (i j : ℕ) (d : Vec3),
      (j, d) ∈ neighborsView pairs i → (i, d.neg) ∈ neighborsView pairs j := by
  intro pairs i j d h
  rw [neighborsView, List.mem_flatMap] at h
  obtain ⟨p, hp, hm⟩ := h
  rw [neighborsView, List.mem_flatMap]
  refine ⟨p, hp, ?_⟩
  rcases List.mem_append.1 hm with h1 | h2
  · by_cases hpi : p.i = i
    · rw [if_pos hpi] at h1
      simp only [List.mem_singleton, Prod.mk.injEq] at h1
      apply List.mem_append.2
      right
      rw [if_pos h1.1.symm]
      simp [hpi, h1.2]
    · rw [if_neg hpi] at h1
      cases h1
  · by_cases hpj : p.j = i
    · rw [if_pos hpj] at h2
      simp only [List.mem_singleton, Prod.mk.injEq] at h2
      apply List.mem_append.2
      left
      rw [if_pos h2.1.symm]
      simp [hpj, h2.2, Vec3.neg_neg]
    · rw [if_neg hpj] at h2
      cases h2

/-- C9 witness: for the single stored pair `(0, 1)` with displacement
`(1, 0, 0)`, the view of atom `0` contains `(1, (1,0,0))` and the view of
atom `1` contains the synthesized partner `(0, (-1,0,0))`. -/
theorem neighborsView_symmetric_witness :
    ((1 : ℕ), (⟨1, 0, 0⟩ : Vec3)) ∈ neighborsView [⟨0, 1, ⟨1, 0, 0⟩⟩] 0
      ∧ ((0 : ℕ), Vec3.neg ⟨1, 0, 0⟩) ∈ neighborsView [⟨0, 1, ⟨1, 0, 0⟩⟩] 1 := by
  have h : ((1 : ℕ), (⟨1, 0, 0⟩ : Vec3)) ∈ neighborsView [⟨0, 1, ⟨1, 0, 0⟩⟩] 0 := by
    simp [neighborsView]
  exact ⟨h, neighborsView_symmetric [⟨0, 1, ⟨1, 0, 0⟩⟩] 0 1 ⟨1, 0, 0⟩ h⟩

/-! ## C8 — `neighbors` never succeeds, in range or not -/

/-- C8: `neighbors` does not fail *iff* the index is out of range — it fails
for every index.  On an instance whose `nbors` attribute is present (the most
favorable state imaginable, though no method of the class ever creates it),
an in-range index still raises `NameError` because the source returns the
unbound name `displ`; an out-of-range index raises `IndexError` from the
indexing that happens first; and on any state the class itself can produce,
the `nbors` attribute is absent and the call raises `AttributeError`. -/
theorem neighbors_always_fails :
    neighbors ⟨[(1, 2)], 1, some [⟨0, 0, 0⟩, ⟨1, 0, 0⟩], some pbcAll,
        some idCell, some [[1], [0]]⟩ 0 = .error PyErr.nameError
      ∧ neighbors ⟨[(1, 2)], 1, some [⟨0, 0, 0⟩, ⟨1, 0, 0⟩], some pbcAll,
          some idCell, some [[1], [0]]⟩ 5 = .error PyErr.indexError
      ∧ neighbors (NeighborList.initDefault [(1, 1)]) 0
          = .error PyErr.attributeError :=
  ⟨rfl, rfl, rfl⟩

/-! ## C1 — the rebuild criterion is componentwise, not Euclidean -/

/-- Strict lower bounds against a left fold of `max` are witnessed by some
element (or the seed). -/
lemma lt_foldl_max_iff (c x : ℚ) (xs : List ℚ) :
    c < xs.foldl max x ↔ c < x ∨ ∃ y ∈ xs, c < y := by
  induction xs generalizing x with
  | nil => simp
  | cons a as ih =>
    rw [List.foldl_cons, ih (max x a)]
    simp only [lt_max_iff, List.mem_cons]
    constructor
    · rintro ((h | h) | ⟨y, hy, hly⟩)
      · exact Or.inl h
      · exact Or.inr ⟨a, Or.inl rfl, h⟩
      · exact Or.inr ⟨y, Or.inr hy, hly⟩
    · rintro (h | ⟨y, rfl | hy, hly⟩)
      · exact Or.inl (Or.inl h)
      · exact Or.inl (Or.inr hly)
      · exact Or.inr ⟨y, hy, hly⟩

/-- Membership in the flattened squared-difference array. -/
lemma mem_sqDiffList_iff (curr old : List Vec3) (q : ℚ) :
    q ∈ sqDiffList curr old ↔
      ∃ pq ∈ List.zip curr old,
        q = (pq.1.x - pq.2.x) ^ 2 ∨ q = (pq.1.y - pq.2.y) ^ 2
          ∨ q = (pq.1.z - pq.2.z) ^ 2 := by
  simp [sqDiffList, List.mem_flatMap]

/-- For a nonnegative bound, comparing squares is comparing against the
absolute value. -/
lemma sq_lt_sq_iff_abs (c d : ℚ) (hc : 0 ≤ c) : c ^ 2 < d ^ 2 ↔ c < |d| := by
  rw [← sq_abs d]
  constructor
  · intro h
    by_contra hle
    push_neg at hle
    exact absurd (pow_le_pow_left₀ (abs_nonneg d) hle 2) (not_le.2 h)
  · intro h
    exact pow_lt_pow_left₀ h hc (by norm_num)

/-- The squared-difference array of two nonempty equal-length position lists
is nonempty. -/
lemma sqDiffList_ne_nil (curr old : List Vec3) (h : curr ≠ [])
    (hlen : curr.length = old.length) : sqDiffList curr old ≠ [] := by
  cases curr with
  | nil => exact absurd rfl h
  | cons p ps =>
    cases old with
    | nil => simp at hlen
    | cons o os => simp [sqDiffList]

/-- C1 counterexample: with `skin = 5` and a single atom that moved from the
origin to `(4, 4, 0)`, the atom's Euclidean displacement `√32` exceeds the
skin (`5² < 32`), so the claim requires a rebuild — but `update` compares
only the largest squared *coordinate* difference (`16 ≤ 25`) and is a no-op
that leaves the state unchanged. -/
theorem update_euclidean_criterion_cx :
    (0 : ℚ) ≤ (5 : ℚ)
      ∧ (5 : ℚ) ^ 2 < (Vec3.sub ⟨4, 4, 0⟩ ⟨0, 0, 0⟩).sqNorm
      ∧ update
            ⟨[(1, 2)], 5, some [⟨0, 0, 0⟩], Option.none, Option.none, Option.none⟩
            ⟨[⟨4, 4, 0⟩], idCell, pbcAll⟩
          = .ok (PyVal.none, false,
              ⟨[(1, 2)], 5, some [⟨0, 0, 0⟩], Option.none, Option.none,
                Option.none⟩) := by
  refine ⟨by norm_num, by norm_num [Vec3.sub, Vec3.sqNorm, Vec3.dot], ?_⟩
  norm_num [update, updateCond, npMax, sqDiffList, Except.map, Vec3.sub]

/-- C1 (amended): the rebuild branch of `update` is taken exactly when the
instance is Stale (no cached positions) or some atom has some single
coordinate displaced by more than `skin` in absolute value (the
componentwise maximum, not the Euclidean norm).  A Stale instance always
takes the rebuild branch; for a Valid instance with a nonempty,
shape-compatible system, the branch is taken iff the componentwise criterion
fires, and when it does not fire `update` is a no-op returning the state
unchanged; for an empty system the displacement check itself raises
`ValueError` (NumPy `.max()` of an empty array) instead of no-op. -/
theorem update_rebuild_iff_componentwise :
    (∀ (s : NLState) (a : Atoms), s.positions = Option.none →
        updateCond s a = .ok true)
      ∧ (∀ (s : NLState) (a : Atoms) (old : List Vec3),
          s.positions = some old → a.positions ≠ [] →
          a.positions.length = old.length → 0 ≤ s.skin →
            (updateCond s a = .ok true ↔
                compDispExceeds a.positions old s.skin)
              ∧ (¬ compDispExceeds a.positions old s.skin →
                  update s a = .ok (PyVal.none, false, s)))
      ∧ ∀ (s : NLState) (a : Atoms),
          s.positions = some ([] : List Vec3) → a.positions = [] →
            update s a = .error PyErr.valueError := by
  refine ⟨?_, ?_, ?_⟩
  · intro s a hp
    simp [updateCond, hp]
  swap
  · intro s a hp ha
    simp [update, updateCond, hp, ha, sqDiffList, npMax, Except.map]
  intro s a old hp hne hlen hskin
  obtain ⟨x, xs, hcons⟩ : ∃ x xs, sqDiffList a.positions old = x :: xs := by
    cases hsd : sqDiffList a.positions old with
    | nil => exact absurd hsd (sqDiffList_ne_nil _ _ hne hlen)
    | cons x xs => exact ⟨x, xs, rfl⟩
  have hcond : updateCond s a
      = .ok (if s.skin ^ 2 < xs.foldl max x then true else false) := by
    unfold updateCond
    rw [hp]
    simp only [if_pos hlen, hcons, npMax, Except.map]
  have hiff : updateCond s a = .ok true ↔
      compDispExceeds a.positions old s.skin := by
    rw [hcond]
    constructor
    · intro h
      have hlt : s.skin ^ 2 < xs.foldl max x := by
        by_contra hnot
        rw [if_neg hnot] at h
        simp at h
      have hex : ∃ q ∈ sqDiffList a.positions old, s.skin ^ 2 < q := by
        rw [hcons]
        rcases (lt_foldl_max_iff _ _ _).1 hlt with h1 | ⟨y, hy, hly⟩
        · exact ⟨x, List.mem_cons_self x xs, h1⟩
        · exact ⟨y, List.mem_cons_of_mem x hy, hly⟩
      obtain ⟨q, hqmem, hqlt⟩ := hex
      rw [mem_sqDiffList_iff] at hqmem
      obtain ⟨pq, hpq, hq⟩ := hqmem
      refine ⟨pq, hpq, ?_⟩
      rcases hq with h1 | h2 | h3
      · exact Or.inl ((sq_lt_sq_iff_abs _ _ hskin).1 (h1 ▸ hqlt))
      · exact Or.inr (Or.inl ((sq_lt_sq_iff_abs _ _ hskin).1 (h2 ▸ hqlt)))
      · exact Or.inr (Or.inr ((sq_lt_sq_iff_abs _ _ hskin).1 (h3 ▸ hqlt)))
    · rintro ⟨pq, hpq, hcomp⟩
      have hex : ∃ q ∈ sqDiffList a.positions old, s.skin ^ 2 < q := by
        rcases hcomp with h1 | h2 | h3
        · exact ⟨(pq.1.x - pq.2.x) ^ 2,
            (mem_sqDiffList_iff _ _ _).2 ⟨pq, hpq, Or.inl rfl⟩,
            (sq_lt_sq_iff_abs _ _ hskin).2 h1⟩
        · exact ⟨(pq.1.y - pq.2.y) ^ 2,
            (mem_sqDiffList_iff _ _ _).2 ⟨pq, hpq, Or.inr (Or.inl rfl)⟩,
            (sq_lt_sq_iff_abs _ _ hskin).2 h2⟩
        · exact ⟨(pq.1.z - pq.2.z) ^ 2,
            (mem_sqDiffList_iff _ _ _).2 ⟨pq, hpq, Or.inr (Or.inr rfl)⟩,
            (sq_lt_sq_iff_abs _ _ hskin).2 h3⟩
      obtain ⟨q, hqmem, hqlt⟩ := hex
      rw [hcons] at hqmem
      have hlt : s.skin ^ 2 < xs.foldl max x := by
        rw [lt_foldl_max_iff]
        rcases List.mem_cons.1 hqmem with rfl | hq
        · exact Or.inl hqlt
        · exact Or.inr ⟨q, hq, hqlt⟩
      rw [if_pos hlt]
  refine ⟨hiff, fun hnc => ?_⟩
  have hfalse : updateCond s a = .ok false := by
    rw [hcond]
    by_cases hlt : s.skin ^ 2 < xs.foldl max x
    · exact absurd (hiff.1 (by rw [hcond, if_pos hlt])) hnc
    · rw [if_neg hlt]
  unfold update
  rw [hfalse]

/-- C1 (amended) witness: a freshly constructed (Stale) instance takes the
rebuild branch; with `skin = 2` and a single atom moved from the origin to
`(0, 3, 0)`, the `y`-coordinate displacement `3` exceeds the skin and the
rebuild criterion fires; and on an empty system the call raises
`ValueError`. -/
theorem update_rebuild_iff_componentwise_witness :
    updateCond (NeighborList.initDefault [(1, 1)])
        ⟨[⟨0, 0, 0⟩], idCell, pbcAll⟩ = .ok true
      ∧ ((updateCond
            ⟨[(1, 2)], 2, some [⟨0, 0, 0⟩], Option.none, Option.none,
              Option.none⟩
            ⟨[⟨0, 3, 0⟩], idCell, pbcAll⟩ = .ok true
          ↔ compDispExceeds [⟨0, 3, 0⟩] [⟨0, 0, 0⟩] 2)
        ∧ (¬ compDispExceeds [⟨0, 3, 0⟩] [⟨0, 0, 0⟩] 2 →
            update
              ⟨[(1, 2)], 2, some [⟨0, 0, 0⟩], Option.none, Option.none,
                Option.none⟩
              ⟨[⟨0, 3, 0⟩], idCell, pbcAll⟩
            = .ok (PyVal.none, false,
                ⟨[(1, 2)], 2, some [⟨0, 0, 0⟩], Option.none, Option.none,
                  Option.none⟩)))
      ∧ update ⟨[(1, 1)], 1, some ([] : List Vec3), Option.none, Option.none,
            Option.none⟩
          ⟨([] : List Vec3), idCell, pbcAll⟩ = .error PyErr.valueError :=
  ⟨update_rebuild_iff_componentwise.1 _ _ rfl,
   update_rebuild_iff_componentwise.2.1
     ⟨[(1, 2)], 2, some [⟨0, 0, 0⟩], Option.none, Option.none, Option.none⟩
     ⟨[⟨0, 3, 0⟩], idCell, pbcAll⟩ [⟨0, 0, 0⟩]
     rfl (by simp) rfl (by norm_num),
   update_rebuild_iff_componentwise.2.2 _ _ rfl rfl⟩

/-! ## C2 — two consecutive updates with unchanged input -/

/-- C2 (code_bug evidence): with cached positions at the origin and the atom
now at `(7, 0, 0)` (well beyond the skin of `1`), the first `update` rebuilds
— and so does the second call with identical input, because `build` never
records the supplied positions into the cached `self.positions`, so the
displacement check fires again.  The claim's "the second call is always a
no-op" fails. -/
theorem update_twice_rebuilds_twice :
    update ⟨[(1, 2)], 1, some [⟨0, 0, 0⟩], Option.none, Option.none,
          Option.none⟩
        ⟨[⟨7, 0, 0⟩], idCell, pbcAll⟩
      = .ok (PyVal.none, true,
          ⟨[(1, 2)], 1, some [⟨0, 0, 0⟩], some pbcAll, some idCell,
            Option.none⟩)
    ∧ update ⟨[(1, 2)], 1, some [⟨0, 0, 0⟩], some pbcAll, some idCell,
          Option.none⟩
        ⟨[⟨7, 0, 0⟩], idCell, pbcAll⟩
      = .ok (PyVal.none, true,
          ⟨[(1, 2)], 1, some [⟨0, 0, 0⟩], some pbcAll, some idCell,
            Option.none⟩) := by
  constructor <;>
    norm_num [update, updateCond, npMax, sqDiffList, Except.map, build,
      rcmaxOf, Mat3.inv?, Mat3.det, idCell, pbcAll]

/-! ## C3 — `update` returns `None`, not a rebuild boolean -/

/-- C3 counterexample: a call on which a rebuild occurs returns the Python
value `None`, not the boolean `True` the claim requires. -/
theorem update_return_value_cx :
    update ⟨[(2, 3)], 1, some [⟨0, 0, 0⟩], Option.none, Option.none,
          Option.none⟩
        ⟨[⟨6, 0, 0⟩], idCell, pbcAll⟩
      = .ok (PyVal.none, true,
          ⟨[(2, 3)], 1, some [⟨0, 0, 0⟩], some pbcAll, some idCell,
            Option.none⟩)
    ∧ PyVal.none ≠ PyVal.bool true := by
  constructor
  · norm_num [update, updateCond, npMax, sqDiffList, Except.map, build,
      rcmaxOf, Mat3.inv?, Mat3.det, idCell, pbcAll]
  · simp

/-- C3 (amended): `update` has no `return` statement, so every successful
call returns the Python value `None`, whether or not a rebuild occurred;
callers cannot learn from the return value whether the pair list was
rebuilt. -/
theorem update_always_returns_none :
    ∀ (s : NLState) (a : Atoms) (v : PyVal) (b : Bool) (s2 : NLState),
      update s a = .ok (v, b, s2) → v = PyVal.none := by
  intro s a v b s2 h
  unfold update at h
  cases hc : updateCond s a with
  | error e =>
    rw [hc] at h
    exact Except.noConfusion h
  | ok b0 =>
    rw [hc] at h
    cases b0 with
    | false =>
      injection h with h1
      exact (congrArg Prod.fst h1).symm
    | true =>
      cases hb : build s a with
      | mk s3 eopt =>
        rw [hb] at h
        cases eopt with
        | none =>
          injection h with h1
          exact (congrArg Prod.fst h1).symm
        | some e => exact Except.noConfusion h

/-- C3 (amended) witness: a successful no-op call (positions unchanged)
returns `None`. -/
theorem update_always_returns_none_witness :
    update ⟨[(1, 1)], 1, some [⟨0, 0, 0⟩], Option.none, Option.none,
          Option.none⟩
        ⟨[⟨0, 0, 0⟩], idCell, pbcAll⟩
      = .ok (PyVal.none, false,
          ⟨[(1, 1)], 1, some [⟨0, 0, 0⟩], Option.none, Option.none,
            Option.none⟩)
    ∧ PyVal.none = PyVal.none := by
  have h : update ⟨[(1, 1)], 1, some [⟨0, 0, 0⟩], Option.none, Option.none,
        Option.none⟩
      ⟨[⟨0, 0, 0⟩], idCell, pbcAll⟩
    = .ok (PyVal.none, false,
        ⟨[(1, 1)], 1, some [⟨0, 0, 0⟩], Option.none, Option.none,
          Option.none⟩) := by
    norm_num [update, updateCond, npMax, sqDiffList, Except.map]
  exact ⟨h, update_always_returns_none _ _ _ _ _ h⟩

/-! ## C4 — `build` never records the build-time positions -/

/-- C4 (code_bug evidence): the source stores the freshly fetched positions
in a local variable (line 12) and never assigns `self.positions`, so after
*any* `build` call — on any state, with any atoms — the cached last-build
positions (and the neighbor storage) are exactly what they were before the
call, never the supplied positions. -/
theorem build_never_records_positions :
    ∀ (s : NLState) (a : Atoms),
      ((build s a).1).positions = s.positions
        ∧ ((build s a).1).nbors = s.nbors := by
  intro s a
  rw [build_fst]
  exact ⟨rfl, rfl⟩

/-! ## C7 — a failed build is not atomic: `pbc` and `cell` are already
overwritten -/

/-- C7 counterexample: a valid prior state (cached positions, all-false
periodicity flags, the identity cell) is given a degenerate zero-volume
cell.  `build` does fail fast (`LinAlgError` from the matrix inversion), but
by that time `self.pbc` and `self.cell` have already been overwritten with
the new values (source lines 13–14 precede the inversion on line 18), so the
instance is *not* left exactly as it was before the failed call. -/
theorem build_failure_overwrites_cell_cx :
    build ⟨[(1, 2)], 1, some [⟨0, 0, 0⟩], some ⟨false, false, false⟩,
          some idCell, Option.none⟩
        ⟨[⟨0, 0, 0⟩], zeroCell, pbcAll⟩
      = (⟨[(1, 2)], 1, some [⟨0, 0, 0⟩], some pbcAll, some zeroCell,
            Option.none⟩,
          some PyErr.linAlgError)
    ∧ (⟨[(1, 2)], 1, some [⟨0, 0, 0⟩], some pbcAll, some zeroCell,
          Option.none⟩ : NLState)
        ≠ ⟨[(1, 2)], 1, some [⟨0, 0, 0⟩], some ⟨false, false, false⟩,
            some idCell, Option.none⟩ := by
  constructor
  · norm_num [build, rcmaxOf, Mat3.inv?, Mat3.det, zeroCell]
  · simp [pbcAll]

/-- C7 (amended): a failed `build` propagates its error and leaves the
cached positions and the neighbor storage untouched (no partial pair data),
and a degenerate zero-determinant cell always makes the build fail — but the
failure is not fully atomic: the periodicity flags and the cell have already
been overwritten with the new atomic values when the error is raised. -/
theorem build_failure_not_atomic :
    (∀ (s : NLState) (a : Atoms) (e : PyErr), (build s a).2 = some e →
        ((build s a).1).positions = s.positions
          ∧ ((build s a).1).nbors = s.nbors
          ∧ ((build s a).1).pbc = some a.pbc
          ∧ ((build s a).1).cell = some a.cell)
      ∧ ∀ (s : NLState) (a : Atoms), Mat3.det a.cell = 0 →
          (build s a).2 ≠ Option.none := by
  constructor
  · intro s a e _
    rw [build_fst]
    exact ⟨rfl, rfl, rfl, rfl⟩
  · intro s a hdet
    cases h1 : rcmaxOf s.cutoffs with
    | error e => simp [build, h1]
    | ok rcmax =>
      have hinv : Mat3.inv? a.cell = Option.none := by
        simp [Mat3.inv?, hdet]
      simp [build, h1, hinv]

/-- C7 (amended) witness: a concrete failed build (degenerate cell) keeps
the cached positions and neighbor storage and has the new periodicity flags
and cell installed. -/
theorem build_failure_not_atomic_witness :
    (build ⟨[(3, 1)], 1, some [⟨1, 0, 0⟩], some ⟨true, false, true⟩,
          some idCell, Option.none⟩
        ⟨[⟨2, 0, 0⟩], zeroCell, pbcAll⟩).2 = some PyErr.linAlgError
    ∧ ((build ⟨[(3, 1)], 1, some [⟨1, 0, 0⟩], some ⟨true, false, true⟩,
            some idCell, Option.none⟩
          ⟨[⟨2, 0, 0⟩], zeroCell, pbcAll⟩).1).positions
        = (⟨[(3, 1)], 1, some [⟨1, 0, 0⟩], some ⟨true, false, true⟩,
            some idCell, Option.none⟩ : NLState).positions
    ∧ ((build ⟨[(3, 1)], 1, some [⟨1, 0, 0⟩], some ⟨true, false, true⟩,
            some idCell, Option.none⟩
          ⟨[⟨2, 0, 0⟩], zeroCell, pbcAll⟩).1).nbors
        = (⟨[(3, 1)], 1, some [⟨1, 0, 0⟩], some ⟨true, false, true⟩,
            some idCell, Option.none⟩ : NLState).nbors
    ∧ ((build ⟨[(3, 1)], 1, some [⟨1, 0, 0⟩], some ⟨true, false, true⟩,
            some idCell, Option.none⟩
          ⟨[⟨2, 0, 0⟩], zeroCell, pbcAll⟩).1).pbc
        = some (⟨[⟨2, 0, 0⟩], zeroCell, pbcAll⟩ : Atoms).pbc
    ∧ ((build ⟨[(3, 1)], 1, some [⟨1, 0, 0⟩], some ⟨true, false, true⟩,
            some idCell, Option.none⟩
          ⟨[⟨2, 0, 0⟩], zeroCell, pbcAll⟩).1).cell
        = some (⟨[⟨2, 0, 0⟩], zeroCell, pbcAll⟩ : Atoms).cell := by
  have h : (build ⟨[(3, 1)], 1, some [⟨1, 0, 0⟩], some ⟨true, false, true⟩,
        some idCell, Option.none⟩
      ⟨[⟨2, 0, 0⟩], zeroCell, pbcAll⟩).2 = some PyErr.linAlgError := by
    norm_num [build, rcmaxOf, Mat3.inv?, Mat3.det, zeroCell]
  obtain ⟨h1, h2, h3, h4⟩ := build_failure_not_atomic.1 _ _ _ h
  exact ⟨h, h1, h2, h3, h4⟩

/-! ## C6 — per-axis periodic repeat counts -/

/-- The exact `ℚ`-level computation `intDivH` agrees with the real-number
floor of `rcmax · √s` when `rcmax` is nonnegative (the truncation toward
zero performed by Python's `int` coincides with the floor there). -/
lemma intDivH_sqrt (r s : ℚ) (hr : 0 ≤ r) (hs : 0 < s) :
    intDivH r s = ⌊(r : ℝ) * Real.sqrt ((s : ℚ) : ℝ)⌋ := by
  have hr' : (0 : ℝ) ≤ (r : ℝ) := by exact_mod_cast hr
  have hq0 : (0 : ℚ) ≤ r ^ 2 * s := by positivity
  have hfl0 : 0 ≤ ⌊r ^ 2 * s⌋ := Int.floor_nonneg.2 hq0
  set k : ℕ := Int.toNat ⌊r ^ 2 * s⌋ with hk
  set m : ℕ := Nat.sqrt k with hm
  have hcast : ((k : ℕ) : ℤ) = ⌊r ^ 2 * s⌋ := Int.toNat_of_nonneg hfl0
  have hkle : ((k : ℕ) : ℚ) ≤ r ^ 2 * s := by
    have := Int.floor_le (r ^ 2 * s)
    have h2 : (((k : ℕ) : ℤ) : ℚ) = ((⌊r ^ 2 * s⌋ : ℤ) : ℚ) := by
      exact_mod_cast congrArg (fun z : ℤ => (z : ℚ)) hcast
    push_cast at h2
    linarith [h2 ▸ this]
  have hklt : r ^ 2 * s < ((k : ℕ) : ℚ) + 1 := by
    have := Int.lt_floor_add_one (r ^ 2 * s)
    have h2 : (((k : ℕ) : ℤ) : ℚ) = ((⌊r ^ 2 * s⌋ : ℤ) : ℚ) := by
      exact_mod_cast congrArg (fun z : ℤ => (z : ℚ)) hcast
    push_cast at h2
    linarith [h2 ▸ this]
  have hm2 : (m : ℕ) ^ 2 ≤ k := Nat.sqrt_le' k
  have hm3 : k < (m + 1) ^ 2 := Nat.lt_succ_sqrt' k
  have ht1 : ((m : ℕ) : ℝ) ≤ Real.sqrt (((r ^ 2 * s : ℚ) : ℝ)) := by
    rw [Real.le_sqrt (by positivity) (by exact_mod_cast hq0)]
    calc ((m : ℕ) : ℝ) ^ 2 = (((m ^ 2 : ℕ) : ℕ) : ℝ) := by push_cast; ring
    _ ≤ ((k : ℕ) : ℝ) := by exact_mod_cast hm2
    _ ≤ ((r ^ 2 * s : ℚ) : ℝ) := by exact_mod_cast hkle
  have ht2 : Real.sqrt (((r ^ 2 * s : ℚ) : ℝ)) < ((m : ℕ) : ℝ) + 1 := by
    rw [Real.sqrt_lt' (by positivity)]
    calc ((r ^ 2 * s : ℚ) : ℝ) < ((k : ℕ) : ℝ) + 1 := by exact_mod_cast hklt
    _ ≤ (((m + 1) ^ 2 : ℕ) : ℝ) := by
        have : (k : ℕ) + 1 ≤ (m + 1) ^ 2 := hm3
        exact_mod_cast this
    _ = (((m : ℕ) : ℝ) + 1) ^ 2 := by push_cast; ring
  have hteq : Real.sqrt (((r ^ 2 * s : ℚ) : ℝ))
      = (r : ℝ) * Real.sqrt ((s : ℚ) : ℝ) := by
    push_cast
    rw [Real.sqrt_mul (by positivity) ((s : ℝ))]
    rw [Real.sqrt_sq hr']
  have hfloor : ⌊(r : ℝ) * Real.sqrt ((s : ℚ) : ℝ)⌋ = ((m : ℕ) : ℤ) := by
    rw [Int.floor_eq_iff]
    rw [← hteq]
    constructor
    · exact_mod_cast ht1
    · exact_mod_cast ht2
  rw [hfloor]
  unfold intDivH
  rw [if_neg (not_lt.2 hr)]

/-- C6: during `build`, a periodic axis appends the repeat count
`⌊rcmax / h⌋ + 1`, where `h = 1 / ‖v‖` is the slab thickness derived from
the matching column `v` of the inverse cell (the perpendicular spacing
between opposing cell faces), for any nonnegative `rcmax`; a non-periodic
axis appends `0`; and `build`'s `N` list consists of exactly these three
per-axis counts taken from the columns of the inverse cell. -/
theorem axisRepeat_slab_spec :
    (∀ (rcmax : ℚ) (v : Vec3), 0 ≤ rcmax → 0 < v.sqNorm →
        axisRepeat true rcmax v
          = ⌊(rcmax : ℝ)
              / ((1 : ℝ) / Real.sqrt ((v.sqNorm : ℚ) : ℝ))⌋ + 1)
      ∧ (∀ (rcmax : ℚ) (v : Vec3), axisRepeat false rcmax v = 0)
      ∧ ∀ (p : Pbc) (rcmax : ℚ) (icell : Mat3),
          repeatCounts p rcmax icell
            = [axisRepeat p.p0 rcmax icell.col0,
               axisRepeat p.p1 rcmax icell.col1,
               axisRepeat p.p2 rcmax icell.col2] := by
  refine ⟨?_, fun rcmax v => rfl, fun p rcmax icell => rfl⟩
  intro rcmax v hr hs
  rw [one_div, div_inv_eq_mul]
  show intDivH rcmax v.sqNorm + 1 = _
  rw [intDivH_sqrt rcmax v.sqNorm hr hs]

/-- C6 witness: for `rcmax = 13/10` and the first axis of the identity
inverse cell (`v = (1,0,0)`, slab thickness `1`), the appended repeat count
is `⌊1.3⌋ + 1 = 2`. -/
theorem axisRepeat_slab_spec_witness :
    (0 : ℚ) ≤ 13 / 10
      ∧ (0 : ℚ) < Vec3.sqNorm ⟨1, 0, 0⟩
      ∧ axisRepeat true (13 / 10) ⟨1, 0, 0⟩
          = ⌊((13 / 10 : ℚ) : ℝ)
              / ((1 : ℝ) / Real.sqrt ((Vec3.sqNorm ⟨1, 0, 0⟩ : ℚ) : ℝ))⌋
            + 1 := by
  have h1 : (0 : ℚ) ≤ 13 / 10 := by norm_num
  have h2 : (0 : ℚ) < Vec3.sqNorm ⟨1, 0, 0⟩ := by
    norm_num [Vec3.sqNorm, Vec3.dot]
  exact ⟨h1, h2, axisRepeat_slab_spec.1 (13 / 10) ⟨1, 0, 0⟩ h1 h2⟩

end NeighborListModel
